import Mathlib

/-!
# Verification of the ClubCalendar sync job (`src/sync/sync.py`)

Shallow embedding of the event-transformation pipeline of the ClubCalendar
sync job.  Python values flowing through the pipeline are modelled by the
inductive type `Val` (JSON-like data: `None`, booleans, integers, strings,
lists, string-keyed dicts).  Code that can raise an exception is modelled in
`Except Unit`; a `try/except` in the source corresponds to a `match` that
collapses the error case.  Strings are case-folded at the level of their
character codes (ASCII, matching the repertoire the job actually handles).

The embedded functions keep the names of the Python functions they are
translated from: `apply_auto_tags`, `derive_time_of_day`,
`derive_availability`, `derive_weekend`, `transform_event`, and the
per-event loop of `sync_events` (here `sync_transform`).
-/

set_option autoImplicit false
set_option linter.unreachableTactic false
set_option linter.unusedTactic false

/-- Model of a Python/JSON value as consumed by the sync job. -/
inductive Val where
  | none : Val
  | bool : Bool → Val
  | int : Int → Val
  | str : String → Val
  | list : List Val → Val
  | dict : List (String × Val) → Val
deriving Repr

mutual
/-- Structural equality test on `Val` (Python `==` restricted to values of
the same type; the pipeline never compares across types except with `0`,
handled separately). -/
def valBeq : Val → Val → Bool
  | Val.none, Val.none => true
  | Val.bool a, Val.bool b => a == b
  | Val.int a, Val.int b => a == b
  | Val.str a, Val.str b => a == b
  | Val.list a, Val.list b => valListBeq a b
  | Val.dict a, Val.dict b => valDictBeq a b
  | _, _ => false

/-- Elementwise equality of value lists. -/
def valListBeq : List Val → List Val → Bool
  | [], [] => true
  | a :: as, b :: bs => valBeq a b && valListBeq as bs
  | _, _ => false

/-- Entrywise equality of dict entry lists. -/
def valDictBeq : List (String × Val) → List (String × Val) → Bool
  | [], [] => true
  | (k, v) :: as, (l, w) :: bs => k == l && valBeq v w && valDictBeq as bs
  | _, _ => false
end

mutual
theorem valBeq_refl : ∀ a : Val, valBeq a a = true
  | Val.none => rfl
  | Val.bool b => by simp [valBeq]
  | Val.int n => by simp [valBeq]
  | Val.str s => by simp [valBeq]
  | Val.list l => by simp [valBeq, valListBeq_refl l]
  | Val.dict d => by simp [valBeq, valDictBeq_refl d]

theorem valListBeq_refl : ∀ l : List Val, valListBeq l l = true
  | [] => rfl
  | a :: as => by simp [valListBeq, valBeq_refl a, valListBeq_refl as]

theorem valDictBeq_refl : ∀ d : List (String × Val), valDictBeq d d = true
  | [] => rfl
  | (k, v) :: rest => by simp [valDictBeq, valBeq_refl v, valDictBeq_refl rest]
end

mutual
theorem valBeq_eq : ∀ (a b : Val), valBeq a b = true → a = b
  | Val.none, Val.none, _ => rfl
  | Val.bool a, Val.bool b, h => by simp [valBeq] at h; simp [h]
  | Val.int a, Val.int b, h => by simp [valBeq] at h; simp [h]
  | Val.str a, Val.str b, h => by simp [valBeq] at h; simp [h]
  | Val.list a, Val.list b, h => by
      simp only [valBeq] at h
      exact congrArg Val.list (valListBeq_eq a b h)
  | Val.dict a, Val.dict b, h => by
      simp only [valBeq] at h
      exact congrArg Val.dict (valDictBeq_eq a b h)
  | Val.none, Val.bool _, h => by simp [valBeq] at h
  | Val.none, Val.int _, h => by simp [valBeq] at h
  | Val.none, Val.str _, h => by simp [valBeq] at h
  | Val.none, Val.list _, h => by simp [valBeq] at h
  | Val.none, Val.dict _, h => by simp [valBeq] at h
  | Val.bool _, Val.none, h => by simp [valBeq] at h
  | Val.bool _, Val.int _, h => by simp [valBeq] at h
  | Val.bool _, Val.str _, h => by simp [valBeq] at h
  | Val.bool _, Val.list _, h => by simp [valBeq] at h
  | Val.bool _, Val.dict _, h => by simp [valBeq] at h
  | Val.int _, Val.none, h => by simp [valBeq] at h
  | Val.int _, Val.bool _, h => by simp [valBeq] at h
  | Val.int _, Val.str _, h => by simp [valBeq] at h
  | Val.int _, Val.list _, h => by simp [valBeq] at h
  | Val.int _, Val.dict _, h => by simp [valBeq] at h
  | Val.str _, Val.none, h => by simp [valBeq] at h
  | Val.str _, Val.bool _, h => by simp [valBeq] at h
  | Val.str _, Val.int _, h => by simp [valBeq] at h
  | Val.str _, Val.list _, h => by simp [valBeq] at h
  | Val.str _, Val.dict _, h => by simp [valBeq] at h
  | Val.list _, Val.none, h => by simp [valBeq] at h
  | Val.list _, Val.bool _, h => by simp [valBeq] at h
  | Val.list _, Val.int _, h => by simp [valBeq] at h
  | Val.list _, Val.str _, h => by simp [valBeq] at h
  | Val.list _, Val.dict _, h => by simp [valBeq] at h
  | Val.dict _, Val.none, h => by simp [valBeq] at h
  | Val.dict _, Val.bool _, h => by simp [valBeq] at h
  | Val.dict _, Val.int _, h => by simp [valBeq] at h
  | Val.dict _, Val.str _, h => by simp [valBeq] at h
  | Val.dict _, Val.list _, h => by simp [valBeq] at h

theorem valListBeq_eq : ∀ (a b : List Val), valListBeq a b = true → a = b
  | [], [], _ => rfl
  | a :: as, b :: bs, h => by
      simp only [valListBeq, Bool.and_eq_true] at h
      rw [valBeq_eq a b h.1, valListBeq_eq as bs h.2]
  | [], _ :: _, h => by simp [valListBeq] at h
  | _ :: _, [], h => by simp [valListBeq] at h

theorem valDictBeq_eq : ∀ (a b : List (String × Val)), valDictBeq a b = true → a = b
  | [], [], _ => rfl
  | (k, v) :: as, (l, w) :: bs, h => by
      simp only [valDictBeq, Bool.and_eq_true, beq_iff_eq] at h
      rw [h.1.1, valBeq_eq v w h.1.2, valDictBeq_eq as bs h.2]
  | [], _ :: _, h => by simp [valDictBeq] at h
  | _ :: _, [], h => by simp [valDictBeq] at h
end

instance : DecidableEq Val := fun a b =>
  decidable_of_iff (valBeq a b = true) ⟨valBeq_eq a b, fun h => h ▸ valBeq_refl a⟩

/-- First-match lookup in an association list (model of a Python dict;
dict keys are unique, so first-match agrees with Python lookup). -/
def lookupA : List (String × Val) → String → Option Val
  | [], _ => Option.none
  | (k, v) :: rest, key => if k = key then Option.some v else lookupA rest key

/-- Field access on a dict value (used only to state theorems about
the produced output records). -/
def valLookup : Val → String → Option Val
  | Val.dict d, key => lookupA d key
  | _, _ => Option.none

/-- Python truthiness (`bool(v)`) for the values of our model. -/
def truthy : Val → Bool
  | Val.none => false
  | Val.bool b => b
  | Val.int n => n != 0
  | Val.str s => s ≠ ""
  | Val.list l => !l.isEmpty
  | Val.dict d => !d.isEmpty

/-- Model of `v.get(key, default)`.  Returns the stored value whenever the
key is present (even if that value is falsy); raises `AttributeError`
(modelled as `Except.error ()`) when the receiver is not a dict. -/
def pyGetD (v : Val) (key : String) (dflt : Val) : Except Unit Val :=
  match v with
  | Val.dict d =>
    match lookupA d key with
    | Option.some w => Except.ok w
    | Option.none => Except.ok dflt
  | _ => Except.error ()

/-- Model of the key-synonym access pattern
`cfg.get(k1, cfg.get(k2, default))` used at `sync.py` lines 172-173 and 234
to accept both the snake_case and the camelCase key spelling.
Python evaluates the inner (camelCase) `get` first. -/
def syn_get (cfg : Val) (k1 k2 : String) (dflt : Val) : Except Unit Val :=
  match pyGetD cfg k2 dflt with
  | Except.error er => Except.error er
  | Except.ok inner => pyGetD cfg k1 inner

/-- Numeric view of a value: Python arithmetic and `<` treat `bool` as the
integers 0/1; everything else is not a number. -/
def numOf : Val → Option Int
  | Val.int n => Option.some n
  | Val.bool b => Option.some (if b then 1 else 0)
  | _ => Option.none

/-- Model of Python `a - b` (raises `TypeError` on non-numeric operands). -/
def pySub (a b : Val) : Except Unit Int :=
  match numOf a, numOf b with
  | Option.some x, Option.some y => Except.ok (x - y)
  | _, _ => Except.error ()

/-- Model of Python `v == 0` for our value universe (`False == 0` holds). -/
def pyEqZeroB : Val → Bool
  | Val.int n => n == 0
  | Val.bool b => !b
  | _ => false

/-- Model of Python `h < b` with `h` a known int (raises `TypeError` when
`b` is not numeric). -/
def pyLtIntVal (h : Int) (b : Val) : Except Unit Bool :=
  match numOf b with
  | Option.some x => Except.ok (decide (h < x))
  | Option.none => Except.error ()

/-- Character codes of a string (the pipeline only case-folds and compares
strings, so we work on the code points directly). -/
def strCodes (s : String) : List Nat := s.data.map Char.toNat

/-- ASCII case-folding to lower case, as `str.lower()` acts on the ASCII
repertoire the job handles. -/
def lowerCodes (l : List Nat) : List Nat :=
  l.map fun n => if 65 ≤ n ∧ n ≤ 90 then n + 32 else n

/-- ASCII case-folding to upper case (model of `str.upper()`). -/
def upperCodes (l : List Nat) : List Nat :=
  l.map fun n => if 97 ≤ n ∧ n ≤ 122 then n - 32 else n

/-- `pat in s` on code lists: `pat` occurs as a contiguous run. -/
def isInfixN (pat : List Nat) : List Nat → Bool
  | [] => pat.isEmpty
  | c :: rest => pat.isPrefixOf (c :: rest) || isInfixN pat rest

/-- `'CANCELLED' in name.upper()` — the cancellation filter of
`sync_events` (line 326). -/
def isCancelledName (s : String) : Bool :=
  isInfixN (strCodes "CANCELLED") (upperCodes (strCodes s))

/-- Characters `str.strip()` removes (ASCII whitespace). -/
def isSpaceCh (c : Char) : Bool :=
  c = ' ' ∨ c = '\t' ∨ c = '\n' ∨ c = '\r' ∨ c.toNat = 11 ∨ c.toNat = 12

/-- `t.strip()` on character lists. -/
def trimCh (l : List Char) : List Char :=
  ((l.dropWhile isSpaceCh).reverse.dropWhile isSpaceCh).reverse

/-- `s.split(',')` on character lists: split at every comma, keeping empty
pieces (`"a,,b" → ["a", "", "b"]`, `"" → [""]`). -/
def splitComma : List Char → List (List Char)
  | [] => [[]]
  | c :: rest =>
    match splitComma rest with
    | [] => if c = ',' then [[], []] else [[c]]
    | h :: t => if c = ',' then [] :: h :: t else (c :: h) :: t

/-- `[t.strip() for t in s.split(',') if t.strip()]` — the tag-string
parsing of `transform_event` (line 229). -/
def splitCommaTrim (s : String) : List String :=
  (((splitComma s.data).map (fun l => String.mk (trimCh l))).filter (fun t => t ≠ ""))

/-- `s.replace('Z', '+00:00')` — every `'Z'` is replaced (lines 169, 209). -/
def pyReplaceZ (s : String) : String :=
  String.mk (s.data.foldr
    (fun c acc => if c = 'Z' then '+' :: '0' :: '0' :: ':' :: '0' :: '0' :: acc else c :: acc)
    [])

mutual
/-- Model of Python `str(v)` (used only to interpolate the event id into the
fallback URL f-string at line 265). -/
def pyStrOf : Val → String
  | Val.none => "None"
  | Val.bool b => if b then "True" else "False"
  | Val.int n => toString n
  | Val.str s => s
  | Val.list l => "[" ++ pyStrList l ++ "]"
  | Val.dict d => "\x7b" ++ pyStrDict d ++ "\x7d"

/-- Model of Python `repr(v)` as used when rendering collection elements. -/
def pyReprOf : Val → String
  | Val.str s => String.singleton (Char.ofNat 39) ++ s ++ String.singleton (Char.ofNat 39)
  | Val.none => "None"
  | Val.bool b => if b then "True" else "False"
  | Val.int n => toString n
  | Val.list l => "[" ++ pyStrList l ++ "]"
  | Val.dict d => "\x7b" ++ pyStrDict d ++ "\x7d"

/-- Renders list elements separated by `", "`. -/
def pyStrList : List Val → String
  | [] => ""
  | [v] => pyReprOf v
  | v :: rest => pyReprOf v ++ ", " ++ pyStrList rest

/-- Renders dict entries separated by `", "`. -/
def pyStrDict : List (String × Val) → String
  | [] => ""
  | [(k, v)] => String.singleton (Char.ofNat 39) ++ k ++ String.singleton (Char.ofNat 39)
      ++ ": " ++ pyReprOf v
  | (k, v) :: rest => String.singleton (Char.ofNat 39) ++ k ++ String.singleton (Char.ofNat 39)
      ++ ": " ++ pyReprOf v ++ ", " ++ pyStrDict rest
end

/-- The fallback URL synthesized at line 265:
`f"https://sbnewcomers.org/event-{event_id}"`. -/
def fallbackUrl (eid : Val) : String :=
  String.mk ("https://sbnewcomers.org/event-".data ++ (pyStrOf eid).data)

/-- Values Python can put into a `set` (hashable); lists and dicts raise
`TypeError`. -/
def hashableV : Val → Bool
  | Val.list _ => false
  | Val.dict _ => false
  | _ => true

/-- Model of `list(set(l))` at line 253: duplicates are removed (the
iteration order of a Python set is unspecified; we fix one dedup order,
which is all any property of the source relies on). -/
def pySetList (l : List Val) : Except Unit (List Val) :=
  if l.all hashableV then Except.ok l.dedup else Except.error ()

/-! ## Model of `datetime.fromisoformat`

The source parses start timestamps with
`datetime.fromisoformat(start_date_str.replace('Z', '+00:00'))` and only
ever uses the `hour` field and the weekday of the result.  We model the
classic `fromisoformat` grammar
`YYYY-MM-DD[<sep>HH[:MM[:SS[.fff[fff]]]][±HH:MM]]` (the separator is one
arbitrary character) with full range validation, returning
`(year, month, day, hour)` on success. -/

/-- Is `c` an ASCII digit? -/
def isDigitCh (c : Char) : Bool := 48 ≤ c.toNat && c.toNat ≤ 57

/-- Numeric value of an ASCII digit. -/
def digitVal (c : Char) : Nat := c.toNat - 48

/-- Consume exactly two digits. -/
def take2 : List Char → Option (Nat × List Char)
  | a :: b :: rest =>
    if isDigitCh a && isDigitCh b then Option.some (digitVal a * 10 + digitVal b, rest)
    else Option.none
  | _ => Option.none

/-- Consume exactly four digits. -/
def take4 : List Char → Option (Nat × List Char)
  | a :: b :: c :: d :: rest =>
    if isDigitCh a && isDigitCh b && isDigitCh c && isDigitCh d then
      Option.some (((digitVal a * 10 + digitVal b) * 10 + digitVal c) * 10 + digitVal d, rest)
    else Option.none
  | _ => Option.none

/-- Proleptic Gregorian leap year (as `datetime` uses). -/
def isLeap (y : Nat) : Bool := (y % 4 == 0 && y % 100 != 0) || y % 400 == 0

/-- Days in a month. -/
def daysInMonth (y m : Nat) : Nat :=
  if m = 2 then (if isLeap y then 29 else 28)
  else if m = 4 ∨ m = 6 ∨ m = 9 ∨ m = 11 then 30
  else 31

/-- A UTC offset tail `HH:MM` after the sign, to end of input. -/
def parseTzTail (cs : List Char) : Bool :=
  match take2 cs with
  | Option.some (th, ':' :: cs2) =>
    match take2 cs2 with
    | Option.some (tm, []) => th * 60 + tm < 1440
    | _ => false
  | _ => false

/-- An optional UTC offset (`±HH:MM`) occupying the rest of the input. -/
def parseTzPart : List Char → Bool
  | [] => true
  | c :: cs => (c = '+' || c = '-') && parseTzTail cs

/-- A fractional-seconds group: `.` followed by exactly 3 or 6 digits;
returns the remaining input. -/
def parseFrac : List Char → Option (List Char)
  | '.' :: rest =>
    let ds := rest.takeWhile isDigitCh
    if ds.length = 3 ∨ ds.length = 6 then Option.some (rest.drop ds.length) else Option.none
  | _ => Option.none

/-- After the seconds: optional fraction, then optional offset, to the end. -/
def parseSecTail (cs : List Char) : Bool :=
  match cs with
  | '.' :: _ =>
    match parseFrac cs with
    | Option.some rest => parseTzPart rest
    | Option.none => false
  | _ => parseTzPart cs

/-- The time part `HH[:MM[:SS[.fff[fff]]]][±HH:MM]`; returns the hour. -/
def parseTime (cs : List Char) : Option Nat :=
  match take2 cs with
  | Option.some (h, rest) =>
    if h ≤ 23 then
      match rest with
      | ':' :: cs2 =>
        match take2 cs2 with
        | Option.some (m, rest2) =>
          if m ≤ 59 then
            match rest2 with
            | ':' :: cs3 =>
              match take2 cs3 with
              | Option.some (s, rest3) =>
                if s ≤ 59 ∧ parseSecTail rest3 then Option.some h else Option.none
              | Option.none => Option.none
            | _ => if parseTzPart rest2 then Option.some h else Option.none
          else Option.none
        | Option.none => Option.none
      | _ => if parseTzPart rest then Option.some h else Option.none
    else Option.none
  | Option.none => Option.none

/-- Model of `datetime.fromisoformat`, reduced to the fields the job reads:
returns `(year, month, day, hour)` or fails. -/
def parseIso (cs : List Char) : Option (Nat × Nat × Nat × Nat) :=
  match take4 cs with
  | Option.some (y, '-' :: cs1) =>
    match take2 cs1 with
    | Option.some (mo, '-' :: cs2) =>
      match take2 cs2 with
      | Option.some (d, rest) =>
        if 1 ≤ y ∧ 1 ≤ mo ∧ mo ≤ 12 ∧ 1 ≤ d ∧ d ≤ daysInMonth y mo then
          match rest with
          | [] => Option.some (y, mo, d, 0)
          | _ :: timecs =>
            match parseTime timecs with
            | Option.some h => Option.some (y, mo, d, h)
            | Option.none => Option.none
        else Option.none
      | _ => Option.none
    | _ => Option.none
  | _ => Option.none

/-- Days before month `m` in year `y`. -/
def daysBeforeMonth (y m : Nat) : Nat :=
  (List.range (m - 1)).foldl (fun acc i => acc + daysInMonth y (i + 1)) 0

/-- Proleptic-Gregorian ordinal of a date (`date(1,1,1)` is day 1, as in
Python's `date.toordinal`). -/
def ordinalOf (y m d : Nat) : Nat :=
  365 * (y - 1) + (y - 1) / 4 - (y - 1) / 100 + (y - 1) / 400 + daysBeforeMonth y m + d

/-- `date.weekday()`: Monday is 0, Sunday is 6. -/
def pyWeekdayOf (y m d : Nat) : Nat := (ordinalOf y m d + 6) % 7

/-! ## The transformation pipeline (`sync.py` lines 128-283) -/

/-- One iteration of the rule loop of `apply_auto_tags` (lines 142-160):
given the case-folded event name, decide whether the rule matches and, if
so, which tag it contributes.  Raises when the rule is not a dict or its
pattern is not a string (`rule.get` / `pattern.lower()`). -/
def ruleMatch (nameC : List Nat) (rule : Val) : Except Unit (Option Val) :=
  match pyGetD rule "type" Val.none with
  | Except.error er => Except.error er
  | Except.ok rtype =>
  match pyGetD rule "pattern" (Val.str "") with
  | Except.error er => Except.error er
  | Except.ok patV =>
  match patV with
  | Val.str p =>
    let pat := lowerCodes (strCodes p)
    match pyGetD rule "tag" Val.none with
    | Except.error er => Except.error er
    | Except.ok tag =>
    if pat.isEmpty || !truthy tag then Except.ok Option.none
    else
      let matched :=
        if rtype = Val.str "name-prefix" then pat.isPrefixOf nameC
        else if rtype = Val.str "name-contains" then isInfixN pat nameC
        else if rtype = Val.str "name-suffix" then pat.isSuffixOf nameC
        else false
      Except.ok (if matched then Option.some tag else Option.none)
  | _ => Except.error ()

/-- The rule loop of `apply_auto_tags`, accumulating matched tags in rule
order. -/
def applyRules (nameC : List Nat) : List Val → Except Unit (List Val)
  | [] => Except.ok []
  | r :: rs =>
    match ruleMatch nameC r with
    | Except.error er => Except.error er
    | Except.ok m =>
      match applyRules nameC rs with
      | Except.error er => Except.error er
      | Except.ok rest =>
        Except.ok (match m with
          | Option.some t => t :: rest
          | Option.none => rest)

/-- `apply_auto_tags(event, rules)` (lines 128-162).  The event name is
fetched with default `''` and case-folded once; iterating a non-list rules
value raises `TypeError` unless it is an empty string or empty dict (whose
iteration bodies never run). -/
def apply_auto_tags (event : Val) (rules : Val) : Except Unit (List Val) :=
  match pyGetD event "Name" (Val.str "") with
  | Except.error er => Except.error er
  | Except.ok nv =>
  match nv with
  | Val.str s =>
    let nameC := lowerCodes (strCodes s)
    match rules with
    | Val.list rl => applyRules nameC rl
    | Val.str s2 => if s2 = "" then Except.ok [] else Except.error ()
    | Val.dict dd => if dd.isEmpty then Except.ok [] else Except.error ()
    | _ => Except.error ()
  | _ => Except.error ()

/-- The boundary-hour extraction of `derive_time_of_day` (lines 172-176),
including the two key-naming conventions.  Returns the raw `before` values
(validated only when compared against the hour, as in the source). -/
def boundsOf (config : Val) : Except Unit (Val × Val) :=
  match syn_get config "derived_fields" "derivedFields" (Val.dict []) with
  | Except.error er => Except.error er
  | Except.ok tc0 =>
  match syn_get tc0 "time_of_day" "timeOfDay" (Val.dict []) with
  | Except.error er => Except.error er
  | Except.ok tc =>
  match pyGetD tc "morning" (Val.dict []) with
  | Except.error er => Except.error er
  | Except.ok mo =>
  match pyGetD mo "before" (Val.int 12) with
  | Except.error er => Except.error er
  | Except.ok mb =>
  match pyGetD tc "afternoon" (Val.dict []) with
  | Except.error er => Except.error er
  | Except.ok af =>
  match pyGetD af "before" (Val.int 17) with
  | Except.error er => Except.error er
  | Except.ok ab => Except.ok (mb, ab)

/-- `derive_time_of_day(start_date_str, config)` (lines 165-185).  The
whole body is inside `try/except (ValueError, AttributeError, TypeError)`,
which covers every exception the body can raise, so the model is total and
any raised error yields `None` (no tag). -/
def derive_time_of_day (sv : Val) (config : Val) : Option String :=
  match sv with
  | Val.str s =>
    match parseIso (pyReplaceZ s).data with
    | Option.none => Option.none
    | Option.some (_, _, _, hour) =>
      match boundsOf config with
      | Except.error _ => Option.none
      | Except.ok (mb, ab) =>
        match pyLtIntVal (hour : Int) mb with
        | Except.error _ => Option.none
        | Except.ok true => Option.some "time:morning"
        | Except.ok false =>
          match pyLtIntVal (hour : Int) ab with
          | Except.error _ => Option.none
          | Except.ok true => Option.some "time:afternoon"
          | Except.ok false => Option.some "time:evening"
  | _ => Option.none

/-- `derive_availability(event)` (lines 188-203).  Not wrapped in a
`try/except`: a type error in `limit - confirmed` propagates. -/
def derive_availability (event : Val) : Except Unit String :=
  match pyGetD event "RegistrationsLimit" Val.none with
  | Except.error er => Except.error er
  | Except.ok limit =>
  match pyGetD event "ConfirmedRegistrationsCount" (Val.int 0) with
  | Except.error er => Except.error er
  | Except.ok confirmed =>
  if limit = Val.none || pyEqZeroB limit then Except.ok "availability:open"
  else
    match pySub limit confirmed with
    | Except.error er => Except.error er
    | Except.ok spots =>
      if spots ≤ 0 then Except.ok "availability:full"
      else if spots ≤ 5 then Except.ok "availability:limited"
      else Except.ok "availability:open"

/-- `derive_weekend(start_date_str)` (lines 206-212); parse failures yield
`False`. -/
def derive_weekend (sv : Val) : Bool :=
  match sv with
  | Val.str s =>
    match parseIso (pyReplaceZ s).data with
    | Option.some (y, m, d, _) => 5 ≤ pyWeekdayOf y m d
    | Option.none => false
  | _ => false

/-- The tag-string normalization of `transform_event` lines 227-231:
a comma-delimited string is split and trimmed, `None` becomes `[]`, and any
other value is kept as is (a non-list will fail later at the `+`). -/
def parseWaTags (v : Val) : Val :=
  match v with
  | Val.str s => Val.list ((splitCommaTrim s).map Val.str)
  | Val.none => Val.list []
  | w => w

/-- The derived-tag accumulation of `transform_event` lines 242-250: the
time-of-day tag if derivable, then the availability tag (always), then the
weekend tag if the start date falls on a weekend. -/
def autoTagsOf (autoTags0 : List Val) (startDate orgConfig : Val) (availTag : String) :
    List Val :=
  if derive_weekend startDate then
    ((match derive_time_of_day startDate orgConfig with
      | Option.some t => autoTags0 ++ [Val.str t]
      | Option.none => autoTags0) ++ [Val.str availTag]) ++ [Val.str "day:weekend"]
  else
    (match derive_time_of_day startDate orgConfig with
     | Option.some t => autoTags0 ++ [Val.str t]
     | Option.none => autoTags0) ++ [Val.str availTag]

/-- Line 258: `spots = None if limit is None else max(0, limit - confirmed)`. -/
def spotsOf (limit confirmed : Val) : Except Unit Val :=
  if limit = Val.none then Except.ok Val.none
  else
    match pySub limit confirmed with
    | Except.error er => Except.error er
    | Except.ok d => Except.ok (Val.int (max 0 d))

/-- Lines 262-265: the source URL verbatim when truthy, else the fallback
synthesized from the id when the id is truthy, else the (falsy) source
value. -/
def urlOf (url0 eid : Val) : Val :=
  if !truthy url0 && truthy eid then Val.str (fallbackUrl eid) else url0

/-- Line 279: `spots == 0 if spots is not None else False`. -/
def isFullOf : Val → Bool
  | Val.int n => n == 0
  | _ => false

/-- Line 274: the description is `Details.DescriptionHtml` when `Details`
is a dict, else the empty string. -/
def descrOf (details : Val) : Except Unit Val :=
  match details with
  | Val.dict _ => pyGetD details "DescriptionHtml" (Val.str "")
  | _ => Except.ok (Val.str "")

/-- Sequencing of fallible steps (a raised exception propagates). -/
def exBind {A B : Type} (x : Except Unit A) (f : A → Except Unit B) : Except Unit B :=
  match x with
  | Except.error er => Except.error er
  | Except.ok a => f a

/-- Line 253 expects the (parsed) source tags to be a list; anything else
raises `TypeError` at `wa_tags + auto_tags`. -/
def asList (v : Val) : Except Unit (List Val) :=
  match v with
  | Val.list l => Except.ok l
  | _ => Except.error ()

/-- `transform_event(event, org_config)` (lines 215-282), step for step:
source tags, auto-tag rules (both key spellings), derived tags, tag-set
dedup, spots/isFull, URL fallback and scalar copies with defaults. -/
def transform_event (event orgConfig : Val) : Except Unit Val :=
  exBind (pyGetD event "Tags" (Val.list [])) fun waTags0 =>
  exBind (syn_get orgConfig "auto_tag_rules" "autoTagRules" (Val.list [])) fun rulesV =>
  exBind (apply_auto_tags event rulesV) fun autoTags0 =>
  exBind (pyGetD event "StartDate" (Val.str "")) fun startDate =>
  exBind (derive_availability event) fun availTag =>
  exBind (asList (parseWaTags waTags0)) fun waList =>
  exBind (pySetList (waList ++ autoTagsOf autoTags0 startDate orgConfig availTag)) fun allTags =>
  exBind (pyGetD event "RegistrationsLimit" Val.none) fun limit =>
  exBind (pyGetD event "ConfirmedRegistrationsCount" (Val.int 0)) fun confirmed =>
  exBind (spotsOf limit confirmed) fun spotsV =>
  exBind (pyGetD event "Id" Val.none) fun eid =>
  exBind (pyGetD event "Url" (Val.str "")) fun url0 =>
  exBind (pyGetD event "Details" Val.none) fun details =>
  exBind (descrOf details) fun descrV =>
  exBind (pyGetD event "Name" (Val.str "")) fun nameV =>
  exBind (pyGetD event "EndDate" (Val.str "")) fun endV =>
  exBind (pyGetD event "Location" (Val.str "")) fun locV =>
  exBind (pyGetD event "RegistrationUrl" (Val.str "")) fun regUrlV =>
  exBind (pyGetD event "RegistrationEnabled" (Val.bool true)) fun regEnV =>
  exBind (pyGetD event "AccessLevel" (Val.str "Public")) fun accV =>
  Except.ok (Val.dict
    [("id", eid), ("name", nameV), ("start", startDate), ("end", endV),
     ("location", locV), ("description", descrV),
     ("url", urlOf url0 eid),
     ("registrationUrl", regUrlV), ("tags", Val.list allTags),
     ("spotsAvailable", spotsV),
     ("isFull", Val.bool (isFullOf spotsV)),
     ("registrationEnabled", regEnV), ("accessLevel", accV)])

/-! ## The per-event loop of `sync_events` (lines 322-334)

The cancellation check `'CANCELLED' in event.get('Name', '').upper()` runs
OUTSIDE the `try` block; only `transform_event` is guarded.  An exception
from the check (non-dict event, non-string name) therefore aborts the whole
sync, while an exception from `transform_event` only skips that event. -/

/-- `name.upper()` succeeds only on a string (any other value raises
`AttributeError`); the upper-cased containment test itself is
`isCancelledName`. -/
def nameStrOf (nv : Val) : Except Unit String :=
  match nv with
  | Val.str s => Except.ok s
  | _ => Except.error ()

/-- The transformation loop: returns the list of transformed events, or an
error when the run aborts. -/
def sync_transform (orgConfig : Val) : List Val → Except Unit (List Val)
  | [] => Except.ok []
  | e :: rest =>
    exBind (pyGetD e "Name" (Val.str "")) fun nv =>
    exBind (nameStrOf nv) fun s =>
    if isCancelledName s then sync_transform orgConfig rest
    else
      match transform_event e orgConfig with
      | Except.ok t =>
        exBind (sync_transform orgConfig rest) fun ts => Except.ok (t :: ts)
      | Except.error _ => sync_transform orgConfig rest

/-- The output document assembled at lines 339-345. -/
def sync_output (orgId generated : String) (ts : List Val) : Val :=
  Val.dict
    [("_warning", Val.str "This file is auto-generated. Do not edit manually."),
     ("_generated", Val.str generated), ("_orgId", Val.str orgId),
     ("eventCount", Val.int ts.length), ("events", Val.list ts)]

/-- `Except.toOption` specialised to our error type (used in statements). -/
def toOptionE : Except Unit Val → Option Val
  | Except.ok v => Option.some v
  | Except.error _ => Option.none

/-- Did the computation succeed? -/
def isOkE {α : Type} : Except Unit α → Bool
  | Except.ok _ => true
  | Except.error _ => false

/-- The cancellation predicate of the loop, as a total function (agrees
with the loop whenever the loop does not abort). -/
def isCancelledEvent (e : Val) : Bool :=
  match pyGetD e "Name" (Val.str "") with
  | Except.ok (Val.str s) => isCancelledName s
  | _ => false

/-! ## Helper lemmas -/

theorem pySetList_nodup {l m : List Val} (h : pySetList l = Except.ok m) : m.Nodup := by
  unfold pySetList at h
  split at h
  · injection h with h
    exact h ▸ List.nodup_dedup l
  · exact Except.noConfusion h

theorem pySetList_mem {l m : List Val} (h : pySetList l = Except.ok m) (x : Val) :
    x ∈ m ↔ x ∈ l := by
  unfold pySetList at h
  split at h
  · injection h with h
    rw [← h]
    exact List.mem_dedup
  · exact Except.noConfusion h

/-! ## C1 — one bad event and the whole sync -/

/-- C1: the claim states that any event whose transformation raises is
skipped with a warning and the sync still succeeds, "including an event
whose name field is present but not a string".  The code violates this:
the cancellation check `'CANCELLED' in event.get('Name', '').upper()`
(line 326) runs before, and outside, the `try` block, so a present
non-string name raises an uncaught `AttributeError` and aborts the whole
run (first conjunct).  An exception raised inside `transform_event`
(here: `RegistrationsLimit` is a string, so `limit - confirmed` raises
`TypeError`) is indeed caught per-event, and the run succeeds with the one
good event (second conjunct). -/
theorem sync_abort_on_nonstring_name :
    sync_transform (Val.dict []) [Val.dict [("Name", Val.int 123)]] = Except.error ()
    ∧ (sync_transform (Val.dict [])
         [Val.dict [("Name", Val.str "Good Event")],
          Val.dict [("Name", Val.str "Bad"), ("RegistrationsLimit", Val.str "x")]]).map
        List.length = Except.ok 1 := ⟨rfl, rfl⟩

/-! ## C2 — canonical URL (counterexample) -/

/-- C2 counterexample: the claim states every successfully transformed
event has a non-empty canonical URL, "including when the identifier itself
is missing".  The code only synthesizes the fallback when `event_id` is
truthy (`if not event_url and event_id`, line 263), so an event with
neither `Url` nor `Id` transforms successfully with an empty URL. -/
theorem transform_url_empty_counterexample :
    isOkE (transform_event (Val.dict []) (Val.dict [])) = true
    ∧ (transform_event (Val.dict []) (Val.dict [])).map (fun o => valLookup o "url")
        = Except.ok (Option.some (Val.str "")) := ⟨rfl, rfl⟩

/-! ## C3 — snake_case/camelCase synonym resolution (counterexample) -/

/-- Modelled from the spec: "snake_case/camelCase pairs are synonyms,
first non-empty wins" — the key resolution the spec describes, used here
only to compare against the source's `syn_get`. -/
def specFirstNonEmpty (cfg : Val) (k1 k2 : String) (dflt : Val) : Val :=
  match valLookup cfg k1 with
  | Option.some v =>
    if truthy v then v
    else
      match valLookup cfg k2 with
      | Option.some w => if truthy w then w else dflt
      | Option.none => dflt
  | Option.none =>
    match valLookup cfg k2 with
    | Option.some w => if truthy w then w else dflt
    | Option.none => dflt

/-- An org config in which the snake_case key is present but empty while
the camelCase synonym carries a non-empty value (morning boundary 0). -/
def cfgSnakeEmptyCamelSet : Val :=
  Val.dict [("derived_fields", Val.dict []),
            ("derivedFields",
             Val.dict [("time_of_day", Val.dict [("morning", Val.dict [("before", Val.int 0)])])])]

/-- The same camelCase value alone (what "first non-empty wins" would use). -/
def cfgCamelOnly : Val :=
  Val.dict [("derivedFields",
             Val.dict [("time_of_day", Val.dict [("morning", Val.dict [("before", Val.int 0)])])])]

/-- C3 counterexample: with the snake_case key present but empty and the
camelCase synonym non-empty, `dict.get` resolution returns the empty
snake_case value, not the non-empty camelCase one (first two conjuncts),
and the behaviour differs: the 09:00 event is tagged `time:morning` under
the defaults instead of `time:afternoon` under the camelCase boundaries
(last two conjuncts). -/
theorem syn_get_first_nonempty_counterexample :
    syn_get cfgSnakeEmptyCamelSet "derived_fields" "derivedFields" (Val.dict [])
      = Except.ok (Val.dict [])
    ∧ syn_get cfgSnakeEmptyCamelSet "derived_fields" "derivedFields" (Val.dict [])
      ≠ Except.ok (specFirstNonEmpty cfgSnakeEmptyCamelSet "derived_fields" "derivedFields"
          (Val.dict []))
    ∧ derive_time_of_day (Val.str "2025-03-05T09:00:00") cfgSnakeEmptyCamelSet
      = Option.some "time:morning"
    ∧ derive_time_of_day (Val.str "2025-03-05T09:00:00") cfgCamelOnly
      = Option.some "time:afternoon" := by
  refine ⟨rfl, ?_, rfl, rfl⟩
  intro h
  injection h with h
  exact absurd (congrArg truthy h) (by decide)

/-! ## C10 — limit-zero events (counterexample) -/

/-- C10 counterexample: the claim asserts that a successfully transformed
event with `RegistrationsLimit = 0` always has `spotsAvailable = 0` and
`isFull = true`, "regardless of the confirmed-registration count".  With a
negative confirmed count (-1), `max(0, 0 - (-1))` is 1, so the output
carries `spotsAvailable = 1` and `isFull = false`. -/
theorem transform_limit_zero_counterexample :
    (transform_event
        (Val.dict [("RegistrationsLimit", Val.int 0),
                   ("ConfirmedRegistrationsCount", Val.int (-1))])
        (Val.dict [])).map
      (fun o => (valLookup o "spotsAvailable", valLookup o "isFull"))
      = Except.ok (Option.some (Val.int 1), Option.some (Val.bool false))
    ∧ (transform_event
        (Val.dict [("RegistrationsLimit", Val.int 0),
                   ("ConfirmedRegistrationsCount", Val.int (-1))])
        (Val.dict [])).map
      (fun o => (valLookup o "spotsAvailable", valLookup o "isFull"))
      ≠ Except.ok (Option.some (Val.int 0), Option.some (Val.bool true)) := by
  refine ⟨rfl, ?_⟩
  intro h
  rw [show (transform_event
        (Val.dict [("RegistrationsLimit", Val.int 0),
                   ("ConfirmedRegistrationsCount", Val.int (-1))])
        (Val.dict [])).map
      (fun o => (valLookup o "spotsAvailable", valLookup o "isFull"))
      = Except.ok (Option.some (Val.int 1), Option.some (Val.bool false)) from rfl] at h
  injection h with h
  simp at h

/-! ## C4 — availability bucket -/

/-- C4: `derive_availability` returns `availability:open` when the
capacity limit is null (or unset) or zero; otherwise, with
`spots = limit - confirmed`, it returns `availability:full` when
`spots ≤ 0`, `availability:limited` when `0 < spots ≤ 5`, and
`availability:open` when `spots > 5`.  The enumerated examples of the
claim appear as the closed conjuncts. -/
theorem derive_availability_spec :
    (∀ (limit confirmed : Int),
       derive_availability (Val.dict [("RegistrationsLimit", Val.int limit),
           ("ConfirmedRegistrationsCount", Val.int confirmed)])
         = Except.ok (if limit = 0 then "availability:open"
             else if limit - confirmed ≤ 0 then "availability:full"
             else if limit - confirmed ≤ 5 then "availability:limited"
             else "availability:open"))
    ∧ (∀ confirmed : Int,
       derive_availability (Val.dict [("RegistrationsLimit", Val.none),
           ("ConfirmedRegistrationsCount", Val.int confirmed)])
         = Except.ok "availability:open")
    ∧ derive_availability (Val.dict []) = Except.ok "availability:open"
    ∧ derive_availability (Val.dict [("RegistrationsLimit", Val.int 0),
        ("ConfirmedRegistrationsCount", Val.int 7)]) = Except.ok "availability:open"
    ∧ derive_availability (Val.dict [("RegistrationsLimit", Val.int 10),
        ("ConfirmedRegistrationsCount", Val.int 10)]) = Except.ok "availability:full"
    ∧ derive_availability (Val.dict [("RegistrationsLimit", Val.int 10),
        ("ConfirmedRegistrationsCount", Val.int 6)]) = Except.ok "availability:limited"
    ∧ derive_availability (Val.dict [("RegistrationsLimit", Val.int 10),
        ("ConfirmedRegistrationsCount", Val.int 3)]) = Except.ok "availability:open" := by
  refine ⟨?_, ?_, rfl, rfl, rfl, rfl, rfl⟩
  · intro limit confirmed
    by_cases h0 : limit = 0
    · subst h0
      simp [derive_availability, pyGetD, lookupA, pyEqZeroB, pySub, numOf]
    · by_cases h1 : limit - confirmed ≤ 0
      · simp [derive_availability, pyGetD, lookupA, pyEqZeroB, pySub, numOf, h0, h1]
      · by_cases h2 : limit - confirmed ≤ 5
        · simp [derive_availability, pyGetD, lookupA, pyEqZeroB, pySub, numOf, h0, h1, h2]
        · simp [derive_availability, pyGetD, lookupA, pyEqZeroB, pySub, numOf, h0, h1, h2]
  · intro confirmed
    simp [derive_availability, pyGetD, lookupA]

/-! ## C5 — time-of-day bucket -/

/-- C5: `derive_time_of_day` parses the start timestamp (trailing `Z`
accepted as UTC offset via the `replace`), buckets the hour by the
configured boundaries (defaults 12 and 17 — third conjunct), and yields no
tag (and no error — the model is total) on parse failure.  The claim's
hour examples 9/14/20 and the unparsable example are the closed
conjuncts. -/
theorem derive_time_of_day_spec (s : String) (cfg : Val) :
    (parseIso (pyReplaceZ s).data = Option.none →
       derive_time_of_day (Val.str s) cfg = Option.none)
    ∧ (∀ (y mo d hour : Nat) (mb ab : Int),
        parseIso (pyReplaceZ s).data = Option.some (y, mo, d, hour) →
        boundsOf cfg = Except.ok (Val.int mb, Val.int ab) →
        derive_time_of_day (Val.str s) cfg =
          Option.some (if (hour : Int) < mb then "time:morning"
            else if (hour : Int) < ab then "time:afternoon" else "time:evening"))
    ∧ boundsOf (Val.dict []) = Except.ok (Val.int 12, Val.int 17)
    ∧ derive_time_of_day (Val.str "2025-03-05T09:00:00") (Val.dict [])
        = Option.some "time:morning"
    ∧ derive_time_of_day (Val.str "2025-03-05T14:30:00") (Val.dict [])
        = Option.some "time:afternoon"
    ∧ derive_time_of_day (Val.str "2025-03-05T20:00:00Z") (Val.dict [])
        = Option.some "time:evening"
    ∧ derive_time_of_day (Val.str "not a timestamp") (Val.dict []) = Option.none := by
  refine ⟨?_, ?_, rfl, rfl, rfl, rfl, rfl⟩
  · intro h
    simp [derive_time_of_day, h]
  · intro y mo d hour mb ab hp hb
    by_cases hm : (hour : Int) < mb
    · simp [derive_time_of_day, hp, hb, pyLtIntVal, numOf, hm]
    · by_cases ha : (hour : Int) < ab
      · simp [derive_time_of_day, hp, hb, pyLtIntVal, numOf, hm, ha]
      · simp [derive_time_of_day, hp, hb, pyLtIntVal, numOf, hm, ha]

/-- Witness for C5: the general bucket statement applied to the concrete
09:00 timestamp under the default boundaries. -/
theorem derive_time_of_day_spec_witness :
    derive_time_of_day (Val.str "2025-03-05T09:00:00") (Val.dict [])
      = Option.some (if (9 : Int) < 12 then "time:morning"
          else if (9 : Int) < 17 then "time:afternoon" else "time:evening") :=
  (derive_time_of_day_spec "2025-03-05T09:00:00" (Val.dict [])).2.1 2025 3 5 9 12 17 rfl rfl

/-! ## C3 — snake_case/camelCase resolution (amended) -/

/-- C3 amended: with both key spellings present, the value actually used is
the first PRESENT one — `dict.get` returns the snake_case value even when
it is empty (first conjunct characterizes the resolution; the second and
third show the camelCase value is ignored wherever the snake_case key is
present, in the time-of-day boundaries and in the auto-tag rules). -/
theorem syn_get_first_present_spec :
    (∀ (d : List (String × Val)) (k1 k2 : String) (dflt : Val),
       syn_get (Val.dict d) k1 k2 dflt
         = Except.ok (match lookupA d k1 with
             | Option.some v => v
             | Option.none =>
               match lookupA d k2 with
               | Option.some w => w
               | Option.none => dflt))
    ∧ (∀ (sv a b : Val),
        derive_time_of_day sv (Val.dict [("derived_fields", a), ("derivedFields", b)])
          = derive_time_of_day sv (Val.dict [("derived_fields", a)]))
    ∧ (∀ (e a b : Val),
        transform_event e (Val.dict [("auto_tag_rules", a), ("autoTagRules", b)])
          = transform_event e (Val.dict [("auto_tag_rules", a)])) := by
  refine ⟨?_, ?_, ?_⟩
  · intro d k1 k2 dflt
    simp only [syn_get, pyGetD]
    cases h2 : lookupA d k2 <;> cases h1 : lookupA d k1 <;> simp [h1, h2]
  · intro sv a b
    have hb : boundsOf (Val.dict [("derived_fields", a), ("derivedFields", b)])
        = boundsOf (Val.dict [("derived_fields", a)]) := rfl
    cases sv <;> simp [derive_time_of_day, hb]
  · intro e a b
    have h2 : syn_get (Val.dict [("auto_tag_rules", a), ("autoTagRules", b)])
          "auto_tag_rules" "autoTagRules" (Val.list [])
        = syn_get (Val.dict [("auto_tag_rules", a)])
          "auto_tag_rules" "autoTagRules" (Val.list []) := rfl
    have hb : boundsOf (Val.dict [("auto_tag_rules", a), ("autoTagRules", b)])
        = boundsOf (Val.dict [("auto_tag_rules", a)]) := rfl
    have h1 : ∀ sv : Val,
        derive_time_of_day sv (Val.dict [("auto_tag_rules", a), ("autoTagRules", b)])
          = derive_time_of_day sv (Val.dict [("auto_tag_rules", a)]) := by
      intro sv
      cases sv <;> simp [derive_time_of_day, hb]
    have h3 : ∀ (ts : List Val) (sd : Val) (t : String),
        autoTagsOf ts sd (Val.dict [("auto_tag_rules", a), ("autoTagRules", b)]) t
          = autoTagsOf ts sd (Val.dict [("auto_tag_rules", a)]) t := by
      intro ts sd t
      simp only [autoTagsOf, h1]
    simp only [transform_event, h2, h3]

/-! ## C6 — tag rule evaluator -/

/-- A rule value on which `ruleMatch` cannot raise: a dict whose `pattern`
entry, if present, is a string (so `pattern.lower()` succeeds). -/
def wellFormedRule : Val → Bool
  | Val.dict d =>
    (match lookupA d "pattern" with
     | Option.some (Val.str _) => true
     | Option.none => true
     | _ => false)
  | _ => false

/-- The tag a single rule contributes (if any), read off `ruleMatch`. -/
def matchedTag (nameC : List Nat) (r : Val) : Option Val :=
  match ruleMatch nameC r with
  | Except.ok m => m
  | Except.error _ => Option.none

theorem ruleMatch_ok (nameC : List Nat) {r : Val} (h : wellFormedRule r = true) :
    ruleMatch nameC r = Except.ok (matchedTag nameC r) := by
  cases r with
  | dict d =>
    unfold matchedTag ruleMatch pyGetD
    cases ht : lookupA d "type" <;>
      cases hp : lookupA d "pattern" <;>
      simp only [wellFormedRule, hp] at h <;>
      simp only [ht, hp]
    case none.none =>
      cases htag : lookupA d "tag" <;> simp only [htag] <;> try (split <;> rfl)
    case none.some v =>
      cases v <;> simp_all
      cases htag : lookupA d "tag" <;> simp only [htag] <;> try (split <;> rfl)
    case some.none =>
      cases htag : lookupA d "tag" <;> simp only [htag] <;> try (split <;> rfl)
    case some.some rt v =>
      cases v <;> simp_all
      cases htag : lookupA d "tag" <;> simp only [htag] <;> try (split <;> rfl)
  | none => simp [wellFormedRule] at h
  | bool b => simp [wellFormedRule] at h
  | int n => simp [wellFormedRule] at h
  | str s => simp [wellFormedRule] at h
  | list l => simp [wellFormedRule] at h

theorem applyRules_eq_filterMap {nameC : List Nat} {rules : List Val}
    (hwf : ∀ r ∈ rules, wellFormedRule r = true) :
    applyRules nameC rules = Except.ok (rules.filterMap (matchedTag nameC)) := by
  induction rules with
  | nil => rfl
  | cons r rs ih =>
    have h1 := ruleMatch_ok nameC (hwf r (by simp))
    have h2 := ih (fun x hx => hwf x (by simp [hx]))
    simp only [applyRules, h1, h2, List.filterMap_cons]
    cases matchedTag nameC r <;> simp

/-- C6: over any rule list of well-formed rules, `apply_auto_tags` emits
the matched tags in rule-list order (conjunct 1, as a `filterMap` in list
order); matching is case-insensitive (conjunct 2: two names with the same
case-folding match identically); a rule whose pattern folds to empty or
whose tag is falsy never matches (conjunct 3); the three recognized rule
types match by starts-with / substring / ends-with on the case-folded
strings (conjuncts 4-6); and an unrecognized rule type never matches and
raises no error (conjuncts 7 and 8). -/
theorem apply_auto_tags_spec :
    (∀ (nm : String) (rules : List Val),
       (∀ r ∈ rules, wellFormedRule r = true) →
       apply_auto_tags (Val.dict [("Name", Val.str nm)]) (Val.list rules)
         = Except.ok (rules.filterMap (matchedTag (lowerCodes (strCodes nm)))))
    ∧ (∀ (nm1 nm2 : String) (rules : Val),
       lowerCodes (strCodes nm1) = lowerCodes (strCodes nm2) →
       apply_auto_tags (Val.dict [("Name", Val.str nm1)]) rules
         = apply_auto_tags (Val.dict [("Name", Val.str nm2)]) rules)
    ∧ (∀ (nameC : List Nat) (d : List (String × Val)) (p : String) (tagv : Val),
       lookupA d "pattern" = Option.some (Val.str p) →
       lookupA d "tag" = Option.some tagv →
       (lowerCodes (strCodes p) = [] ∨ truthy tagv = false) →
       ruleMatch nameC (Val.dict d) = Except.ok Option.none)
    ∧ (∀ (nameC : List Nat) (d : List (String × Val)) (p : String) (tagv : Val),
       lookupA d "type" = Option.some (Val.str "name-prefix") →
       lookupA d "pattern" = Option.some (Val.str p) →
       lookupA d "tag" = Option.some tagv →
       lowerCodes (strCodes p) ≠ [] → truthy tagv = true →
       ruleMatch nameC (Val.dict d)
         = Except.ok (if (lowerCodes (strCodes p)).isPrefixOf nameC
             then Option.some tagv else Option.none))
    ∧ (∀ (nameC : List Nat) (d : List (String × Val)) (p : String) (tagv : Val),
       lookupA d "type" = Option.some (Val.str "name-contains") →
       lookupA d "pattern" = Option.some (Val.str p) →
       lookupA d "tag" = Option.some tagv →
       lowerCodes (strCodes p) ≠ [] → truthy tagv = true →
       ruleMatch nameC (Val.dict d)
         = Except.ok (if isInfixN (lowerCodes (strCodes p)) nameC
             then Option.some tagv else Option.none))
    ∧ (∀ (nameC : List Nat) (d : List (String × Val)) (p : String) (tagv : Val),
       lookupA d "type" = Option.some (Val.str "name-suffix") →
       lookupA d "pattern" = Option.some (Val.str p) →
       lookupA d "tag" = Option.some tagv →
       lowerCodes (strCodes p) ≠ [] → truthy tagv = true →
       ruleMatch nameC (Val.dict d)
         = Except.ok (if (lowerCodes (strCodes p)).isSuffixOf nameC
             then Option.some tagv else Option.none))
    ∧ (∀ (nameC : List Nat) (d : List (String × Val)) (rtype : Val) (p : String),
       lookupA d "type" = Option.some rtype →
       lookupA d "pattern" = Option.some (Val.str p) →
       rtype ≠ Val.str "name-prefix" → rtype ≠ Val.str "name-contains" →
       rtype ≠ Val.str "name-suffix" →
       ruleMatch nameC (Val.dict d) = Except.ok Option.none)
    ∧ (∀ (nameC : List Nat) (r : Val), wellFormedRule r = true →
       isOkE (ruleMatch nameC r) = true) := by
  refine ⟨?_, ?_, ?_, ?_, ?_, ?_, ?_, ?_⟩
  · intro nm rules hwf
    simp only [apply_auto_tags, pyGetD, lookupA]
    norm_num
    exact applyRules_eq_filterMap hwf
  · intro nm1 nm2 rules h
    simp only [apply_auto_tags, pyGetD, lookupA]
    norm_num
    rw [h]
  · intro nameC d p tagv hp htag hcond
    simp only [ruleMatch, pyGetD, hp, htag]
    cases ht : lookupA d "type" <;>
      rcases hcond with hc | hc <;>
      simp [hc, List.isEmpty_iff]
  · intro nameC d p tagv ht hp htag hpne htag2
    simp only [ruleMatch, pyGetD, hp, htag, ht]
    simp [htag2, List.isEmpty_iff, hpne]
  · intro nameC d p tagv ht hp htag hpne htag2
    simp only [ruleMatch, pyGetD, hp, htag, ht]
    simp [htag2, List.isEmpty_iff, hpne]
  · intro nameC d p tagv ht hp htag hpne htag2
    simp only [ruleMatch, pyGetD, hp, htag, ht]
    simp [htag2, List.isEmpty_iff, hpne]
  · intro nameC d rtype p ht hp h1 h2 h3
    simp only [ruleMatch, pyGetD, hp, ht]
    cases htag : lookupA d "tag" <;>
      simp [h1, h2, h3, List.isEmpty_iff] <;>
      split <;> rfl
  · intro nameC r h
    rw [ruleMatch_ok nameC h]
    rfl

/-- Witness for C6: a concrete mixed-case name and rule list: the
`name-contains` rule on pattern `"wine"` matches `"WINE Tasting Night"`
and contributes its tag; the empty-pattern rule and the unrecognized-type
rule contribute nothing. -/
theorem apply_auto_tags_spec_witness :
    apply_auto_tags (Val.dict [("Name", Val.str "WINE Tasting Night")])
      (Val.list
        [Val.dict [("type", Val.str "name-contains"), ("pattern", Val.str "wine"),
                   ("tag", Val.str "category:wine")],
         Val.dict [("type", Val.str "name-prefix"), ("pattern", Val.str ""),
                   ("tag", Val.str "never")],
         Val.dict [("type", Val.str "name-regex"), ("pattern", Val.str "wine"),
                   ("tag", Val.str "never")],
         Val.dict [("type", Val.str "name-suffix"), ("pattern", Val.str "NIGHT"),
                   ("tag", Val.str "time:late")]])
      = Except.ok
          ([Val.dict [("type", Val.str "name-contains"), ("pattern", Val.str "wine"),
                      ("tag", Val.str "category:wine")],
            Val.dict [("type", Val.str "name-prefix"), ("pattern", Val.str ""),
                      ("tag", Val.str "never")],
            Val.dict [("type", Val.str "name-regex"), ("pattern", Val.str "wine"),
                      ("tag", Val.str "never")],
            Val.dict [("type", Val.str "name-suffix"), ("pattern", Val.str "NIGHT"),
                      ("tag", Val.str "time:late")]].filterMap
            (matchedTag (lowerCodes (strCodes "WINE Tasting Night")))) :=
  apply_auto_tags_spec.1 "WINE Tasting Night" _ (by decide)

/-! ## Inversion of a successful `transform_event` -/

theorem availTag_mem_autoTagsOf (autoTags0 : List Val) (startDate orgConfig : Val)
    (availTag : String) :
    Val.str availTag ∈ autoTagsOf autoTags0 startDate orgConfig availTag := by
  unfold autoTagsOf
  split <;> split <;> simp

theorem exBind_ok {A B : Type} {x : Except Unit A} {f : A → Except Unit B} {b : B}
    (h : exBind x f = Except.ok b) : ∃ a, x = Except.ok a ∧ f a = Except.ok b := by
  cases x with
  | ok a => exact ⟨a, rfl, h⟩
  | error er => exact Except.noConfusion h

/-- Elimination principle for a successful `transform_event`: exposes the
field reads, the derived availability tag, the deduplicated tag union, the
spots computation and the exact shape of the output record. -/
theorem transform_event_ok_elim {e cfg out : Val} (h : transform_event e cfg = Except.ok out) :
    ∃ (eid nameV startDate endV locV descrV url0 regUrlV spotsV regEnV accV limit confirmed
        : Val) (waList allTags : List Val) (autoTags0 : List Val) (availTag : String),
      out = Val.dict
          [("id", eid), ("name", nameV), ("start", startDate), ("end", endV),
           ("location", locV), ("description", descrV),
           ("url", urlOf url0 eid),
           ("registrationUrl", regUrlV), ("tags", Val.list allTags),
           ("spotsAvailable", spotsV),
           ("isFull", Val.bool (isFullOf spotsV)),
           ("registrationEnabled", regEnV), ("accessLevel", accV)]
      ∧ pyGetD e "RegistrationsLimit" Val.none = Except.ok limit
      ∧ pyGetD e "ConfirmedRegistrationsCount" (Val.int 0) = Except.ok confirmed
      ∧ pyGetD e "Id" Val.none = Except.ok eid
      ∧ pyGetD e "Url" (Val.str "") = Except.ok url0
      ∧ derive_availability e = Except.ok availTag
      ∧ pySetList (waList ++ autoTagsOf autoTags0 startDate cfg availTag) = Except.ok allTags
      ∧ spotsOf limit confirmed = Except.ok spotsV := by
  unfold transform_event at h
  obtain ⟨waTags0, hTags, h⟩ := exBind_ok h
  obtain ⟨rulesV, hRules, h⟩ := exBind_ok h
  obtain ⟨autoTags0, hAuto, h⟩ := exBind_ok h
  obtain ⟨startDate, hStart, h⟩ := exBind_ok h
  obtain ⟨availTag, hAvail, h⟩ := exBind_ok h
  obtain ⟨waList, hWa, h⟩ := exBind_ok h
  obtain ⟨allTags, hSet, h⟩ := exBind_ok h
  obtain ⟨limit, hLimit, h⟩ := exBind_ok h
  obtain ⟨confirmed, hConf, h⟩ := exBind_ok h
  obtain ⟨spotsV, hSpots, h⟩ := exBind_ok h
  obtain ⟨eid, hId, h⟩ := exBind_ok h
  obtain ⟨url0, hUrl, h⟩ := exBind_ok h
  obtain ⟨details, hDet, h⟩ := exBind_ok h
  obtain ⟨descrV, hDescr, h⟩ := exBind_ok h
  obtain ⟨nameV, hName, h⟩ := exBind_ok h
  obtain ⟨endV, hEnd, h⟩ := exBind_ok h
  obtain ⟨locV, hLoc, h⟩ := exBind_ok h
  obtain ⟨regUrlV, hRegUrl, h⟩ := exBind_ok h
  obtain ⟨regEnV, hRegEn, h⟩ := exBind_ok h
  obtain ⟨accV, hAcc, h⟩ := exBind_ok h
  injection h with h
  exact ⟨eid, nameV, startDate, endV, locV, descrV, url0, regUrlV, spotsV, regEnV, accV,
    limit, confirmed, waList, allTags, autoTags0, availTag,
    h.symm, hLimit, hConf, hId, hUrl, hAvail, hSet, hSpots⟩

theorem nameStrOf_ok {nv : Val} {s : String} (h : nameStrOf nv = Except.ok s) :
    nv = Val.str s := by
  cases nv <;> first
    | exact Except.noConfusion h
    | (injection h with h2; rw [h2])

theorem fallbackUrl_ne_empty (v : Val) : fallbackUrl v ≠ "" := by
  unfold fallbackUrl
  intro hc
  have h2 : "https://sbnewcomers.org/event-".data ++ (pyStrOf v).data = ([] : List Char) :=
    congrArg String.data hc
  rcases List.append_eq_nil.mp h2 with ⟨h3, _⟩
  exact absurd h3 (by decide)

/-! ## C2 — canonical URL (amended) -/

/-- C2 amended: the `url` field of a successfully transformed event is the
source `Url` value verbatim whenever that value is truthy; when it is falsy
and the event `Id` is truthy, a non-empty fallback URL is synthesized from
the id; when both are falsy (e.g. both missing) the (possibly empty) source
value is kept — the URL is NOT always non-empty. -/
theorem transform_url_spec (e cfg out : Val) (h : transform_event e cfg = Except.ok out) :
    ∃ eid url0,
      pyGetD e "Id" Val.none = Except.ok eid
      ∧ pyGetD e "Url" (Val.str "") = Except.ok url0
      ∧ valLookup out "url" = Option.some (urlOf url0 eid)
      ∧ (truthy url0 = true → urlOf url0 eid = url0)
      ∧ (truthy url0 = false → truthy eid = true →
          urlOf url0 eid = Val.str (fallbackUrl eid) ∧ fallbackUrl eid ≠ "")
      ∧ (truthy url0 = false → truthy eid = false → urlOf url0 eid = url0) := by
  obtain ⟨eid, nameV, startDate, endV, locV, descrV, url0, regUrlV, spotsV, regEnV, accV,
    limit, confirmed, waList, allTags, autoTags0, availTag, hout, hLimit, hConf, hId, hUrl,
    hAvail, hSet, hSpots⟩ := transform_event_ok_elim h
  refine ⟨eid, url0, hId, hUrl, by rw [hout]; rfl, ?_, ?_, ?_⟩
  · intro h1
    simp [urlOf, h1]
  · intro h1 h2
    exact ⟨by simp [urlOf, h1, h2], fallbackUrl_ne_empty eid⟩
  · intro h1 h2
    simp [urlOf, h1, h2]

/-- Extracts the payload of a successful computation (junk on error); used
only to name concrete outputs in witness statements. -/
def okValOf (x : Except Unit Val) : Val :=
  match x with
  | Except.ok v => v
  | Except.error _ => Val.none

/-- The concrete output record of the C2 witness event. -/
def outW2c : Val := okValOf (transform_event (Val.dict [("Id", Val.int 42)]) (Val.dict []))

/-- Witness for C2 amended: an event with a truthy `Id` and no `Url` gets
the non-empty fallback URL. -/
theorem transform_url_spec_witness :
    ∃ eid url0,
      pyGetD (Val.dict [("Id", Val.int 42)]) "Id" Val.none = Except.ok eid
      ∧ pyGetD (Val.dict [("Id", Val.int 42)]) "Url" (Val.str "") = Except.ok url0
      ∧ valLookup (outW2c) "url" = Option.some (urlOf url0 eid)
      ∧ (truthy url0 = true → urlOf url0 eid = url0)
      ∧ (truthy url0 = false → truthy eid = true →
          urlOf url0 eid = Val.str (fallbackUrl eid) ∧ fallbackUrl eid ≠ "")
      ∧ (truthy url0 = false → truthy eid = false → urlOf url0 eid = url0) :=
  transform_url_spec (Val.dict [("Id", Val.int 42)]) (Val.dict []) outW2c rfl

/-! ## C8 — spotsAvailable and isFull invariants -/

/-- C8: in every successfully transformed event, `spotsAvailable` is null
exactly when the capacity limit was null or unset, and `isFull` is true
exactly when `spotsAvailable` is exactly 0. -/
theorem transform_spots_full_spec (e cfg out : Val)
    (h : transform_event e cfg = Except.ok out) :
    ∃ limit, pyGetD e "RegistrationsLimit" Val.none = Except.ok limit
      ∧ (valLookup out "spotsAvailable" = Option.some Val.none ↔ limit = Val.none)
      ∧ (valLookup out "isFull" = Option.some (Val.bool true)
          ↔ valLookup out "spotsAvailable" = Option.some (Val.int 0)) := by
  obtain ⟨eid, nameV, startDate, endV, locV, descrV, url0, regUrlV, spotsV, regEnV, accV,
    limit, confirmed, waList, allTags, autoTags0, availTag, hout, hLimit, hConf, hId, hUrl,
    hAvail, hSet, hSpots⟩ := transform_event_ok_elim h
  have hsv : valLookup out "spotsAvailable" = Option.some spotsV := by rw [hout]; rfl
  have hfv : valLookup out "isFull" = Option.some (Val.bool (isFullOf spotsV)) := by
    rw [hout]; rfl
  refine ⟨limit, hLimit, ?_, ?_⟩
  · rw [hsv]
    unfold spotsOf at hSpots
    split at hSpots
    · next hl =>
      injection hSpots with hs
      subst hs
      simp [hl]
    · next hl =>
      split at hSpots
      · exact Except.noConfusion hSpots
      · injection hSpots with hs
        subst hs
        simp [hl]
  · rw [hsv, hfv]
    cases spotsV <;> simp [isFullOf]

/-- The concrete output record of the C8 witness event. -/
def outW8c : Val := okValOf (transform_event
  (Val.dict [("RegistrationsLimit", Val.int 10), ("ConfirmedRegistrationsCount", Val.int 4)])
  (Val.dict []))

/-- Witness for C8: a concrete event with limit 10 and 4 confirmed
registrations. -/
theorem transform_spots_full_spec_witness :
    ∃ limit, pyGetD (Val.dict [("RegistrationsLimit", Val.int 10),
        ("ConfirmedRegistrationsCount", Val.int 4)]) "RegistrationsLimit" Val.none
        = Except.ok limit
      ∧ (valLookup outW8c "spotsAvailable" = Option.some Val.none ↔ limit = Val.none)
      ∧ (valLookup outW8c "isFull" = Option.some (Val.bool true)
          ↔ valLookup outW8c "spotsAvailable" = Option.some (Val.int 0)) :=
  transform_spots_full_spec
    (Val.dict [("RegistrationsLimit", Val.int 10), ("ConfirmedRegistrationsCount", Val.int 4)])
    (Val.dict []) outW8c rfl

/-! ## C9 — deduplicated tag union -/

/-- C9: the tags of every successfully transformed event contain no
duplicates (first conjunct); concretely, source tags `["A","A"]` plus a
rule-derived `"A"` yield exactly one `"A"` (second conjunct). -/
theorem transform_tags_nodup :
    (∀ (e cfg out : Val), transform_event e cfg = Except.ok out →
       ∃ ts : List Val, valLookup out "tags" = Option.some (Val.list ts) ∧ ts.Nodup)
    ∧ (transform_event
         (Val.dict [("Name", Val.str "Alpha"), ("Tags", Val.list [Val.str "A", Val.str "A"])])
         (Val.dict [("auto_tag_rules", Val.list
            [Val.dict [("type", Val.str "name-prefix"), ("pattern", Val.str "a"),
                       ("tag", Val.str "A")]])])).map
        (fun o => match valLookup o "tags" with
          | Option.some (Val.list ts) => List.count (Val.str "A") ts
          | _ => 0) = Except.ok 1 := by
  constructor
  · intro e cfg out h
    obtain ⟨eid, nameV, startDate, endV, locV, descrV, url0, regUrlV, spotsV, regEnV, accV,
      limit, confirmed, waList, allTags, autoTags0, availTag, hout, hLimit, hConf, hId, hUrl,
      hAvail, hSet, hSpots⟩ := transform_event_ok_elim h
    exact ⟨allTags, by rw [hout]; rfl, pySetList_nodup hSet⟩
  · rfl

/-- Witness for C9: the deduplication statement applied to the concrete
duplicate-tag event of the second conjunct. -/
theorem transform_tags_nodup_witness :
    ∃ ts : List Val,
      valLookup (okValOf (transform_event
        (Val.dict [("Name", Val.str "Alpha"), ("Tags", Val.list [Val.str "A", Val.str "A"])])
        (Val.dict [("auto_tag_rules", Val.list
           [Val.dict [("type", Val.str "name-prefix"), ("pattern", Val.str "a"),
                      ("tag", Val.str "A")]])]))) "tags"
        = Option.some (Val.list ts) ∧ ts.Nodup :=
  transform_tags_nodup.1
    (Val.dict [("Name", Val.str "Alpha"), ("Tags", Val.list [Val.str "A", Val.str "A"])])
    (Val.dict [("auto_tag_rules", Val.list
       [Val.dict [("type", Val.str "name-prefix"), ("pattern", Val.str "a"),
                  ("tag", Val.str "A")]])])
    (okValOf (transform_event
      (Val.dict [("Name", Val.str "Alpha"), ("Tags", Val.list [Val.str "A", Val.str "A"])])
      (Val.dict [("auto_tag_rules", Val.list
         [Val.dict [("type", Val.str "name-prefix"), ("pattern", Val.str "a"),
                    ("tag", Val.str "A")]])])))
    rfl

/-! ## C10 — limit-zero events (amended) -/

/-- C10 amended: for a successfully transformed event whose capacity limit
is 0 and whose confirmed-registration count is a NONNEGATIVE integer (or
absent, defaulting to 0), the output carries the `availability:open` tag,
`spotsAvailable = 0` and `isFull = true`.  (The unrestricted claim fails
for negative counts — see the counterexample.) -/
theorem transform_limit_zero_spec (e cfg out : Val) (c : Int)
    (hL : pyGetD e "RegistrationsLimit" Val.none = Except.ok (Val.int 0))
    (hC : pyGetD e "ConfirmedRegistrationsCount" (Val.int 0) = Except.ok (Val.int c))
    (hc : 0 ≤ c)
    (h : transform_event e cfg = Except.ok out) :
    (∃ ts : List Val, valLookup out "tags" = Option.some (Val.list ts)
        ∧ Val.str "availability:open" ∈ ts)
    ∧ valLookup out "spotsAvailable" = Option.some (Val.int 0)
    ∧ valLookup out "isFull" = Option.some (Val.bool true) := by
  obtain ⟨eid, nameV, startDate, endV, locV, descrV, url0, regUrlV, spotsV, regEnV, accV,
    limit, confirmed, waList, allTags, autoTags0, availTag, hout, hLimit, hConf, hId, hUrl,
    hAvail, hSet, hSpots⟩ := transform_event_ok_elim h
  rw [hLimit] at hL
  injection hL with hL
  rw [hConf] at hC
  injection hC with hC
  subst hL
  subst hC
  have hAvailOpen : availTag = "availability:open" := by
    unfold derive_availability at hAvail
    rw [hLimit, hConf] at hAvail
    simp [pyEqZeroB] at hAvail
    exact hAvail.symm
  have hSpotsZero : spotsV = Val.int 0 := by
    unfold spotsOf at hSpots
    rw [if_neg (by simp)] at hSpots
    have hps : pySub (Val.int 0) (Val.int c) = Except.ok (0 - c) := rfl
    rw [hps] at hSpots
    injection hSpots with hs
    rw [← hs]
    have : max 0 (0 - c) = 0 := by omega
    rw [this]
  subst hAvailOpen
  refine ⟨⟨allTags, by rw [hout]; rfl, ?_⟩, ?_, ?_⟩
  · rw [pySetList_mem hSet]
    exact List.mem_append_right waList
      (availTag_mem_autoTagsOf autoTags0 startDate cfg "availability:open")
  · rw [hout, hSpotsZero]
    rfl
  · rw [hout, hSpotsZero]
    rfl

/-- The concrete output record of the C10 witness event. -/
def outW10c : Val := okValOf (transform_event
  (Val.dict [("RegistrationsLimit", Val.int 0), ("ConfirmedRegistrationsCount", Val.int 5)])
  (Val.dict []))

/-- Witness for C10 amended: limit 0 with 5 confirmed registrations. -/
theorem transform_limit_zero_spec_witness :
    (∃ ts : List Val, valLookup outW10c "tags" = Option.some (Val.list ts)
        ∧ Val.str "availability:open" ∈ ts)
    ∧ valLookup outW10c "spotsAvailable" = Option.some (Val.int 0)
    ∧ valLookup outW10c "isFull" = Option.some (Val.bool true) :=
  transform_limit_zero_spec
    (Val.dict [("RegistrationsLimit", Val.int 0), ("ConfirmedRegistrationsCount", Val.int 5)])
    (Val.dict []) outW10c 5 rfl rfl (by decide) rfl

/-! ## C7 — cancelled events are excluded -/

/-- C7: whenever the transformation loop completes, its output is exactly
the per-event transformation of the NON-cancelled events, in order — every
event whose name contains `CANCELLED` in any case is absent — and the
`eventCount` field of the output document counts only those events. -/
theorem sync_excludes_cancelled (cfg : Val) (events ts : List Val)
    (h : sync_transform cfg events = Except.ok ts) :
    ts = (events.filter (fun e => !isCancelledEvent e)).filterMap
           (fun e => toOptionE (transform_event e cfg))
    ∧ (∀ orgId generated : String,
        valLookup (sync_output orgId generated ts) "eventCount"
          = Option.some (Val.int
              ((events.filter (fun e => !isCancelledEvent e)).filterMap
                (fun e => toOptionE (transform_event e cfg))).length)) := by
  have hcount : ∀ (o g : String) (l : List Val),
      valLookup (sync_output o g l) "eventCount" = Option.some (Val.int l.length) :=
    fun _ _ _ => rfl
  have main : ts = (events.filter (fun e => !isCancelledEvent e)).filterMap
      (fun e => toOptionE (transform_event e cfg)) := by
    induction events generalizing ts with
    | nil =>
      injection h with h
      subst h
      rfl
    | cons e rest ih =>
      unfold sync_transform at h
      obtain ⟨nv, hn, hstep⟩ := exBind_ok h
      obtain ⟨s, hs, hbody⟩ := exBind_ok hstep
      have hnv : nv = Val.str s := nameStrOf_ok hs
      subst hnv
      have hice : isCancelledEvent e = isCancelledName s := by
        unfold isCancelledEvent
        rw [hn]
      by_cases hc : isCancelledName s
      · simp [hc] at hbody
        rw [ih ts hbody, List.filter_cons]
        simp [hice, hc]
      · simp [hc] at hbody
        cases htr : transform_event e cfg with
        | ok t =>
          rw [htr] at hbody
          obtain ⟨ts2, hrest, htail⟩ := exBind_ok hbody
          injection htail with htail
          subst htail
          rw [List.filter_cons]
          simp only [hice, hc, Bool.not_false, if_pos, List.filterMap_cons, toOptionE, htr]
          rw [ih ts2 hrest]
          simp [toOptionE]
        | error er =>
          rw [htr] at hbody
          rw [List.filter_cons]
          simp only [hice, hc, Bool.not_false, if_pos, List.filterMap_cons, toOptionE, htr]
          exact ih ts hbody
  exact ⟨main, fun o g => by rw [hcount, main]⟩

/-- Extracts the payload of a successful loop run (junk on error). -/
def okListOf (x : Except Unit (List Val)) : List Val :=
  match x with
  | Except.ok l => l
  | Except.error _ => []

/-- The C7 witness fetch: one cancelled event (mixed case, substring in the
middle) and one good event. -/
def eventsW7 : List Val :=
  [Val.dict [("Name", Val.str "Hike (Cancelled) June")],
   Val.dict [("Name", Val.str "Board Games Night")]]

/-- Witness for C7: the loop output on the concrete fetch contains exactly
the transformation of the non-cancelled event, and eventCount counts it. -/
theorem sync_excludes_cancelled_witness :
    okListOf (sync_transform (Val.dict []) eventsW7)
      = (eventsW7.filter (fun e => !isCancelledEvent e)).filterMap
          (fun e => toOptionE (transform_event e (Val.dict [])))
    ∧ (∀ orgId generated : String,
        valLookup (sync_output orgId generated (okListOf (sync_transform (Val.dict []) eventsW7)))
            "eventCount"
          = Option.some (Val.int
              ((eventsW7.filter (fun e => !isCancelledEvent e)).filterMap
                (fun e => toOptionE (transform_event e (Val.dict [])))).length)) :=
  sync_excludes_cancelled (Val.dict []) eventsW7
    (okListOf (sync_transform (Val.dict []) eventsW7)) rfl
